import Mathlib

/-!
# Verification of the flights/weather pipeline

Shallow embedding of the two core programs of the repository:

* `resume_weather_for_missing.py` — the resumable, rate-limited bulk fetch
  orchestrator (station registry lookup, cache check, monthly period
  partitioning, retry loop with backoff, audit log).
* `flights_weather_2024.py` — the deterministic join engine (flight date
  normalization, weather stacking, (station, date) deduplication, left
  merge, matched/unmatched classification, output artifacts).

Python `date` values are modelled by a `Date` structure of numerals;
pandas `NaN`/`NaT` cells are modelled by `Option`; the network is an
oracle `Nat → ApiResult` indexed by a global request counter; filesystem
effects are recorded in an explicit event trace.
-/

/-- A calendar date, mirroring Python's `datetime.date` (year, month, day). -/
structure Date where
  y : Nat
  m : Nat
  d : Nat
deriving DecidableEq, Repr, BEq

/-- Lexicographic strict order on dates, mirroring `datetime.date` comparison. -/
def dateLt (a b : Date) : Bool :=
  a.y < b.y || (a.y = b.y && (a.m < b.m || (a.m = b.m && a.d < b.d)))

/-- Lexicographic order on dates (`a <= b`). -/
def dateLe (a b : Date) : Bool :=
  dateLt a b || a == b

/-- Gregorian leap-year rule, as implemented by Python's calendar arithmetic. -/
def isLeap (y : Nat) : Bool :=
  y % 4 = 0 && (y % 100 ≠ 0 || y % 400 = 0)

/-- Number of days in a month of the Gregorian calendar; this is the value of
`date(y, m+1, 1) - timedelta(days=1)`'s day field in Python. -/
def daysInMonth (y m : Nat) : Nat :=
  if m = 2 then (if isLeap y then 29 else 28)
  else if m = 4 || m = 6 || m = 9 || m = 11 then 30
  else 31

/-- First day of the month after the month of `d`. -/
def nextMonthStart (d : Date) : Date :=
  if d.m = 12 then ⟨d.y + 1, 1, 1⟩ else ⟨d.y, d.m + 1, 1⟩

/-- Month-start dates from `cur` (inclusive, stepping by months) up to `e`,
with a fuel bound; models the sequence produced by
`pd.date_range(start, end, freq='MS')`. -/
def monthStartsAux : Nat → Date → Date → List Date
  | 0, _, _ => []
  | fuel + 1, cur, e =>
    if dateLe cur e then cur :: monthStartsAux fuel (nextMonthStart cur) e else []

/-- All month-start dates inside `[s, e]`, as `pd.date_range(s, e, freq='MS')`
yields them (if `s` is not itself a month start, the range begins at the next
month start). -/
def monthStarts (s e : Date) : List Date :=
  let first := if s.d = 1 then ⟨s.y, s.m, 1⟩ else nextMonthStart ⟨s.y, s.m, 1⟩
  monthStartsAux ((e.y + 1 - s.y) * 12 + 1) first e

/-- `months_between` of `resume_weather_for_missing.py` (lines 24-36): for each
month start in `[start, end]`, the period from day 1 of that month to the last
calendar day of that month (December special-cased to the 31st, other months
via `date(y, m+1, 1) - timedelta(days=1)`), truncated to `end` when the period
end would exceed it. -/
def months_between (start e : Date) : List (Date × Date) :=
  (monthStarts start e).map (fun s =>
    let sdate : Date := ⟨s.y, s.m, 1⟩
    let edate : Date := if s.m = 12 then ⟨s.y, 12, 31⟩ else ⟨s.y, s.m, daysInMonth s.y s.m⟩
    let edate := if dateLt e edate then e else edate
    (sdate, edate))

/-- `START_DATE = date(2024,1,1)` from the orchestrator configuration. -/
def START_DATE : Date := ⟨2024, 1, 1⟩

/-- `END_DATE = date(2024,12,31)` from the orchestrator configuration. -/
def END_DATE : Date := ⟨2024, 12, 31⟩

/-- `USE_MONTHLY = True` from the orchestrator configuration. -/
def USE_MONTHLY : Bool := true

/-- `RETRY_ATTEMPTS = 6` from the orchestrator configuration. -/
def RETRY_ATTEMPTS : Nat := 6

/-- `DAILY_VARS` from the orchestrator configuration. -/
def DAILY_VARS : String :=
  "weather_code,temperature_2m_max,temperature_2m_min,precipitation_sum,wind_speed_10m_max,wind_gusts_10m_max,wind_direction_10m_dominant,shortwave_radiation_sum,uv_index_max"

/-- One archive request's query parameters (`params` dict, lines 94-101).
Coordinates are carried as numerals; the orchestrator performs no arithmetic
on them, only passes them through from the registry. -/
structure Request where
  lat : Int
  lon : Int
  start_date : Date
  end_date : Date
  daily : String
  timezone : String
deriving DecidableEq, Repr, BEq

/-- Build the `params` dict for one station coordinate pair and one period. -/
def mkReq (lat lon : Int) (sdate edate : Date) : Request :=
  { lat := lat, lon := lon, start_date := sdate, end_date := edate,
    daily := DAILY_VARS, timezone := "UTC" }

/-- The decoded `j["daily"]` JSON object: a dictionary from variable name to
its array of values (the `time` array is one of the fields, as in the JSON). -/
structure DailyObj where
  fields : List (String × List String)
deriving DecidableEq, Repr

/-- The decoded response body `j`: it may or may not contain a `daily` object
(`"daily" not in j` models `daily = none`). -/
structure Payload where
  daily : Option DailyObj
deriving DecidableEq, Repr

/-- Outcome of one `safe_get` call plus JSON decoding, as classified by the
source: HTTP 429 is re-raised as a distinguished retry error (lines 63-71),
anything else raised is a generic failure, otherwise the decoded body. -/
inductive ApiResult where
  | rateLimited
  | requestFailed
  | success (p : Payload)
deriving DecidableEq, Repr

/-- One per-month dataframe `dfw` appended to `parts` (lines 111-116): the
`time` column, every non-`time` daily variable column, and the `iata` column. -/
structure CachePart where
  time : List String
  vars : List (String × List String)
  iata : String
deriving DecidableEq, Repr

/-- Observable effects of the orchestrator: a network request, a cache-file
write (with the concatenated parts that form the file body), or a row appended
to the audit log. -/
inductive Ev where
  | req (r : Request)
  | cacheWrite (iata : String) (parts : List CachePart)
  | logRow (iata status notes : String)
deriving DecidableEq, Repr

/-- The orchestrator's environment: the station registry (`ap`, a mapping
station code → coordinates, loaded once from `airports.csv`) and the remote
archive, modelled as an oracle giving the result of the n-th network request
of the run. -/
structure Env where
  registry : String → Option (Int × Int)
  client : Nat → ApiResult

/-- Mutable state threaded through the run: which station codes currently
have a cache file `weather_<iata>.csv` on disk, and how many network requests
have been issued so far (the oracle index). -/
structure St where
  cache : List String
  reqCount : Nat
deriving DecidableEq, Repr

/-- Terminal outcome of the attempt loop for one period. -/
inductive PeriodOutcome where
  | success (part : CachePart)
  | malformed
  | exhausted
deriving DecidableEq, Repr

/-- Result of the attempt loop: request events issued, new request counter,
and the period outcome. -/
structure AttRes where
  evs : List Ev
  n : Nat
  out : PeriodOutcome
deriving Repr

/-- Result of the month loop: events issued, new request counter, the
`failed` flag, and the accumulated `parts`. -/
structure MonRes where
  evs : List Ev
  n : Nat
  failed : Bool
  parts : List CachePart
deriving Repr

/-- The attempt loop `for attempt in range(1, RETRY_ATTEMPTS+1)` (lines
103-129) for one period's `params`, with `k` attempts remaining and request
counter `n`. On a decoded body, a missing `daily` object or missing `time`
array inside it sets `failed` and leaves the loop at once (`break` after
line 110, consuming the current attempt only); a well-formed body appends the
per-month dataframe and leaves the loop; HTTP 429 and generic errors sleep
and retry; running out of attempts triggers the loop's `else` clause,
reported here as `exhausted`. -/
def runAttempts (env : Env) (iata : String) (r : Request) : Nat → Nat → AttRes
  | 0, n => { evs := [], n := n, out := .exhausted }
  | k + 1, n =>
    match env.client n with
    | .success p =>
      match p.daily with
      | none => { evs := [Ev.req r], n := n + 1, out := .malformed }
      | some dly =>
        match dly.fields.lookup "time" with
        | none => { evs := [Ev.req r], n := n + 1, out := .malformed }
        | some ts =>
          { evs := [Ev.req r], n := n + 1,
            out := .success { time := ts,
                              vars := dly.fields.filter (fun v => v.1 ≠ "time"),
                              iata := iata } }
    | .rateLimited =>
      let a := runAttempts env iata r k (n + 1)
      { evs := Ev.req r :: a.evs, n := a.n, out := a.out }
    | .requestFailed =>
      let a := runAttempts env iata r k (n + 1)
      { evs := Ev.req r :: a.evs, n := a.n, out := a.out }

/-- The month loop `for (sdate, edate) in months` (lines 93-129) with the
running `failed` flag and `parts` accumulator. A successful period appends
its part and moves on; a malformed payload sets `failed` and moves on to the
next period (the `break` at line 110 only leaves the attempt loop); retry
exhaustion sets `failed` and leaves the month loop (`break` at line 129). -/
def runMonths (env : Env) (iata : String) (lat lon : Int) :
    List (Date × Date) → Nat → Bool → List CachePart → MonRes
  | [], n, failed, parts => { evs := [], n := n, failed := failed, parts := parts }
  | (sdate, edate) :: rest, n, failed, parts =>
    let a := runAttempts env iata (mkReq lat lon sdate edate) RETRY_ATTEMPTS n
    match a.out with
    | .success part =>
      let r := runMonths env iata lat lon rest a.n failed (parts ++ [part])
      { evs := a.evs ++ r.evs, n := r.n, failed := r.failed, parts := r.parts }
    | .malformed =>
      let r := runMonths env iata lat lon rest a.n true parts
      { evs := a.evs ++ r.evs, n := r.n, failed := r.failed, parts := r.parts }
    | .exhausted =>
      { evs := a.evs, n := a.n, failed := true, parts := parts }

/-- The period list used per station (line 90):
`months_between(START_DATE, END_DATE) if USE_MONTHLY else [(START_DATE, END_DATE)]`. -/
def monthsList : List (Date × Date) :=
  if USE_MONTHLY then months_between START_DATE END_DATE else [(START_DATE, END_DATE)]

/-- One iteration of the station loop `for iata in miss` (lines 73-141):
first the registry check (lines 75-79, `no_coords`), then the cache-file
check (lines 81-86, `cached`), then the month loop; a station writes its
cache file and an `ok` row only when `parts` is nonempty and `failed` is
still false (lines 131-141), otherwise a `failed` row and no file. -/
def processStation (env : Env) (st : St) (iata : String) : List Ev × St :=
  match env.registry iata with
  | none => ([Ev.logRow iata "no_coords" "pulado"], st)
  | some (lat, lon) =>
    if iata ∈ st.cache then
      ([Ev.logRow iata "cached" "ok"], st)
    else
      let r := runMonths env iata lat lon monthsList st.reqCount false []
      if r.parts ≠ [] ∧ r.failed = false then
        (r.evs ++ [Ev.cacheWrite iata r.parts, Ev.logRow iata "ok" "salvo"],
         { cache := st.cache ++ [iata], reqCount := r.n })
      else
        (r.evs ++ [Ev.logRow iata "failed" "partial_or_429"],
         { cache := st.cache, reqCount := r.n })

/-- The whole station loop over the pending list `miss`. -/
def runStations (env : Env) (st : St) : List String → List Ev × St
  | [] => ([], st)
  | iata :: rest =>
    let p := processStation env st iata
    let r := runStations env p.2 rest
    (p.1 ++ r.1, r.2)

/-- The pending list as loaded from `missing_airports.txt` (lines 54-55):
nonblank lines, stripped and upper-cased.  Stated over an abstract
`strip`/`upper` pair; the concrete string functions are introduced with the
join engine below. -/
def loadPending (strip upper : String → String) (lines : List String) : List String :=
  lines.filterMap (fun l => if strip l = "" then none else some (upper (strip l)))

/-- The audit-log rows contained in an event trace, in order. -/
def logRowsOf (evs : List Ev) : List (String × String × String) :=
  evs.filterMap (fun e =>
    match e with
    | Ev.logRow a b c => some (a, b, c)
    | _ => none)

/-- The audit-log file contents after a run: the pre-existing contents if the
file already existed, else exactly the header row (lines 58-61), followed by
the rows appended by the run. -/
def finalLog (logExists : Bool) (old : List (String × String × String))
    (evs : List Ev) : List (String × String × String) :=
  (if logExists then old else [("iata", "status", "notes")]) ++ logRowsOf evs

/-- True exactly on network-request events. -/
def isReq (e : Ev) : Bool :=
  match e with
  | Ev.req _ => true
  | _ => false

/-- True exactly on cache-file-write events. -/
def isCacheWrite (e : Ev) : Bool :=
  match e with
  | Ev.cacheWrite _ _ => true
  | _ => false

/-- True on the ASCII whitespace characters stripped by Python's `str.strip()`
(as they occur in this pipeline's inputs). -/
def isWsChar (c : Char) : Bool :=
  c = ' ' || c = '\t' || c = '\n' || c = '\r'

/-- `str.strip()`: drop leading and trailing whitespace. -/
def stripStr (s : String) : String :=
  String.mk (((s.data.dropWhile isWsChar).reverse.dropWhile isWsChar).reverse)

/-- `str.upper()` on the station codes of this pipeline. -/
def upperStr (s : String) : String :=
  String.mk (s.data.map Char.toUpper)

/-- Split a character list on a separator character (used to model parsing of
the `DD/MM/YYYY` and `YYYY-MM-DD` date spellings). -/
def splitOnChar (sep : Char) : List Char → List (List Char)
  | [] => [[]]
  | c :: rest =>
    match splitOnChar sep rest with
    | [] => [[]]
    | g :: gs => if c = sep then [] :: g :: gs else (c :: g) :: gs

/-- Decimal digit value of a character, if it is a digit. -/
def charDigit (c : Char) : Option Nat :=
  if c = '0' then some 0 else if c = '1' then some 1 else if c = '2' then some 2
  else if c = '3' then some 3 else if c = '4' then some 4 else if c = '5' then some 5
  else if c = '6' then some 6 else if c = '7' then some 7 else if c = '8' then some 8
  else if c = '9' then some 9 else none

/-- Numeric value of a nonempty all-digit character list, else `none`. -/
def digitsToNat : List Char → Option Nat
  | [] => none
  | cs =>
    cs.foldl (fun acc c =>
      match acc, charDigit c with
      | some a, some d => some (a * 10 + d)
      | _, _ => none) (some 0)

/-- The character for a single decimal digit. -/
def digitChar (n : Nat) : Char :=
  if n = 0 then '0' else if n = 1 then '1' else if n = 2 then '2'
  else if n = 3 then '3' else if n = 4 then '4' else if n = 5 then '5'
  else if n = 6 then '6' else if n = 7 then '7' else if n = 8 then '8' else '9'

/-- Two-digit zero-padded rendering (`%m`, `%d`). -/
def pad2 (n : Nat) : String :=
  String.mk [digitChar (n / 10 % 10), digitChar (n % 10)]

/-- Four-digit zero-padded rendering (`%Y` for the years of this data). -/
def fmt4 (n : Nat) : String :=
  String.mk [digitChar (n / 1000 % 10), digitChar (n / 100 % 10),
             digitChar (n / 10 % 10), digitChar (n % 10)]

/-- `strftime("%Y-%m-%d")` on a parsed date. -/
def fmtDate (dt : Date) : String :=
  fmt4 dt.y ++ "-" ++ pad2 dt.m ++ "-" ++ pad2 dt.d

/-- `pd.to_datetime(s, dayfirst=True, errors="coerce")` on the flight file's
day-before-month `DD/MM/YYYY` date spelling: day, then month, then year,
separated by `/`; any non-numeric field, out-of-range month, or out-of-range
day for the month yields `NaT` (`none`). -/
def parseDayFirst (s : String) : Option Date :=
  match splitOnChar '/' s.data with
  | [ds, ms, ys] =>
    match digitsToNat ds, digitsToNat ms, digitsToNat ys with
    | some dd, some mm, some yy =>
      if 1 ≤ mm ∧ mm ≤ 12 ∧ 1 ≤ dd ∧ dd ≤ daysInMonth yy mm then
        some ⟨yy, mm, dd⟩
      else none
    | _, _, _ => none
  | _ => none

/-- `pd.to_datetime(s, errors="coerce")` on the weather files' ISO
`YYYY-MM-DD` date spelling; malformed values yield `NaT` (`none`). -/
def parseISODate (s : String) : Option Date :=
  match splitOnChar '-' s.data with
  | [ys, ms, ds] =>
    match digitsToNat ys, digitsToNat ms, digitsToNat ds with
    | some yy, some mm, some dd =>
      if 1 ≤ mm ∧ mm ≤ 12 ∧ 1 ≤ dd ∧ dd ≤ daysInMonth yy mm then
        some ⟨yy, mm, dd⟩
      else none
    | _, _, _ => none
  | _ => none

/-- `.astype(str)` on a column whose missing entries are float `NaN`
(the result of `strftime` on `NaT`): a missing value becomes the literal
string `"nan"`; a present string is unchanged. -/
def nanStr (v : Option String) : String :=
  match v with
  | some s => s
  | none => "nan"

/-- The configured origin allow-list `SELECTED` of `flights_weather_2024.py`. -/
def SELECTED : List String :=
  ["BOS", "ALB", "JFK", "PHL", "ATL", "MIA", "ORD", "MSP", "IAH", "MSY",
   "DEN", "SLC", "PHX", "LAS", "LAX", "SFO", "SEA", "ANC", "HNL", "SJU"]

/-- One row of the flight CSV after reading (all cells as strings): the
origin cell and the `fl_date` cell.  Column-name normalization and the
schema checks of `read_flights`/`normalize_flight_dates_and_origin` are
out of scope of the claims; the two cells every claim depends on are kept. -/
structure RawFlight where
  origin : String
  fl_date : String
deriving DecidableEq, Repr

/-- One row of `flights_sel` after `normalize_flight_dates_and_origin`
(lines 38-57): the raw `flight_date` text, the parsed date
(`flight_date_parsed`, `NaT` as `none`), the canonical string
(`flight_date_str`, `NaN` as `none` before `.astype(str)`), and the
upper-cased, stripped origin.  The `orig_iata` column added at line 111 is
an exact copy of `origin` and is not repeated here. -/
structure NormFlight where
  origin : String
  flight_date : String
  flight_date_parsed : Option Date
  flight_date_str : Option String
deriving DecidableEq, Repr

/-- `normalize_flight_dates_and_origin` on one row. -/
def normalizeFlight (f : RawFlight) : NormFlight :=
  let parsed := parseDayFirst f.fl_date
  { origin := upperStr (stripStr f.origin),
    flight_date := f.fl_date,
    flight_date_parsed := parsed,
    flight_date_str := parsed.map fmtDate }

/-- `flights_sel` (line 110): normalized flight rows whose origin is in the
configured allow-list. -/
def flightsSel (rf : List RawFlight) : List NormFlight :=
  (rf.map normalizeFlight).filter (fun f => SELECTED.contains f.origin)

/-- One row of a weather cache file as read from disk (all cells strings):
the raw date cell, the `iata` cell (meaningful only when the file has an
`iata` column), and the daily weather variable cells (`NaN` as `none`). -/
structure WRawRow where
  time : String
  iata : String
  vars : List (String × Option String)
deriving DecidableEq, Repr

/-- One weather cache file on disk: its rows, whether it has an `iata`
column, and whether it has a date-like (`time` or `date`) column. -/
structure WFile where
  rows : List WRawRow
  hasIataCol : Bool
  hasDateCol : Bool
deriving Repr

/-- One row of the stacked weather table `weather_all` after
`read_and_stack_weather` (lines 59-100): canonical `date_str` (with `NaT`
coerced by `.astype(str)` to the string `"nan"`), normalized station code,
untouched daily variable cells, and the provenance column `source_file`. -/
structure WeatherRow where
  time : String
  date_str : String
  iata : String
  vars : List (String × Option String)
  source_file : String
deriving DecidableEq, Repr

/-- Load one existing weather cache file for station `code` (loop body of
`read_and_stack_weather`): parse the date column to `date_str`, fill the
`iata` column with `code` when the file lacks one, strip/upper-case it, and
tag every row with the source file name. -/
def loadWFile (code : String) (f : WFile) : List WeatherRow :=
  f.rows.map (fun r =>
    { time := r.time,
      date_str := nanStr ((parseISODate r.time).map fmtDate),
      iata := upperStr (stripStr (if f.hasIataCol then r.iata else code)),
      vars := r.vars,
      source_file := "weather_" ++ code ++ ".csv" })

/-- `read_and_stack_weather(selected, weather_dir)`: for each configured
station in order, skip it silently when its file does not exist or has no
date-like column; otherwise stack its loaded rows and record the station in
`found`.  Returns `(weather_all, found)`. -/
def stackWeather (sel : List String) (dir : String → Option WFile) :
    List WeatherRow × List String :=
  match sel with
  | [] => ([], [])
  | code :: rest =>
    let r := stackWeather rest dir
    match dir code with
    | none => r
    | some f =>
      if f.hasDateCol then (loadWFile code f ++ r.1, code :: r.2) else r

/-- Lexicographic code-point comparison of character lists, which is how
Python's `sorted` compares the station-code strings. -/
def strLeChars : List Char → List Char → Bool
  | [], _ => true
  | _ :: _, [] => false
  | a :: as, b :: bs => if a = b then strLeChars as bs else decide (a < b)

/-- Python string comparison `a <= b` on station codes. -/
def strLe (a b : String) : Bool :=
  strLeChars a.data b.data

/-- Insert a string into a `strLe`-sorted list of strings. -/
def insertSorted (x : String) : List String → List String
  | [] => [x]
  | y :: ys => if strLe x y then x :: y :: ys else y :: insertSorted x ys

/-- Ascending sort of a string list, modelling Python's `sorted`. -/
def sortStrs : List String → List String
  | [] => []
  | x :: xs => insertSorted x (sortStrs xs)

/-- `missing_origins = sorted(set(SELECTED) - set(found))` (line 118): the
configured stations for which no weather file was stacked. -/
def missingOriginsOut (dir : String → Option WFile) : List String :=
  sortStrs (SELECTED.filter (fun c => !((stackWeather SELECTED dir).2.contains c)))

/-- One row of the merged table: the flight columns, plus either the matched
weather row's columns or `NaN` in every weather column. -/
structure MergedRow where
  flight : NormFlight
  weather : Option WeatherRow
deriving DecidableEq, Repr

/-- `drop_duplicates(subset=["iata","date_str"], keep="first")` worker: keep a
row only when its (station, date) key has not been seen yet. -/
def dedupGo (seen : List (String × String)) : List WeatherRow → List WeatherRow
  | [] => []
  | w :: rest =>
    if (w.iata, w.date_str) ∈ seen then dedupGo seen rest
    else w :: dedupGo ((w.iata, w.date_str) :: seen) rest

/-- `weather_unique` (line 133): the stacked weather table with at most one
row per (station, date) key, first occurrence kept. -/
def dedupFirst (l : List WeatherRow) : List WeatherRow :=
  dedupGo [] l

/-- The pandas left merge of line 136-142: one output row per flight row and
matching weather row, keyed by string equality of
`(origin, flight_date_str.astype(str))` against `(iata, date_str)`; a flight
row with no match yields a single row with every weather column `NaN`. -/
def mergeLeft : List NormFlight → List WeatherRow → List MergedRow
  | [], _ => []
  | f :: fs, w =>
    let ms := w.filter (fun x =>
      decide (x.iata = f.origin ∧ x.date_str = nanStr f.flight_date_str))
    (if ms.isEmpty then [{ flight := f, weather := none }]
     else ms.map (fun x => { flight := f, weather := some x })) ++ mergeLeft fs w

/-- The merged table produced by `main` from the selected flights and the
stacked weather table: when the weather table is empty, `main` short-circuits
and writes `flights_sel` itself as the merged output (lines 122-125);
otherwise it writes the left merge against the deduplicated weather table. -/
def mergedOf (fs : List NormFlight) (wAll : List WeatherRow) : List MergedRow :=
  if wAll.isEmpty then fs.map (fun f => { flight := f, weather := none })
  else mergeLeft fs (dedupFirst wAll)

/-- The full merged output of `main` as a function of the flight CSV rows and
the weather cache directory. -/
def mainMergedOut (rf : List RawFlight) (dir : String → Option WFile) :
    List MergedRow :=
  mergedOf (flightsSel rf) (stackWeather SELECTED dir).1

/-- The cells of the columns that the merge adds to the flight table
(`weather_cols`, line 145): the weather-side key and provenance columns
`iata`, `date_str`, `source_file`, and the daily weather variable cells.  In
an unmatched row every one of these cells is `NaN`; the variable cells of an
unmatched row, all `NaN` as well, are subsumed by the three always-`NaN`
cells listed. -/
def addedCells (m : MergedRow) : List (Option String) :=
  match m.weather with
  | some w => some w.iata :: some w.date_str :: some w.source_file :: w.vars.map (fun v => v.2)
  | none => [none, none, none]

/-- `has_weather` (line 148): a merged row counts as matched when at least
one cell of the merge-added columns is non-null. -/
def hasWeather (m : MergedRow) : Bool :=
  (addedCells m).any (fun c => c.isSome)

/-- Pair each list element with its positional index starting at `n`,
modelling the default `RangeIndex` of the merged dataframe. -/
def withIdx (n : Nat) : List MergedRow → List (Nat × MergedRow)
  | [] => []
  | a :: l => (n, a) :: withIdx (n + 1) l

/-- The `missing_matches` output (line 157):
`merged.loc[~merged.index.isin(merged[has_weather].index)]` — the merged rows
whose positional index is not among the indices of the rows classified as
having weather. -/
def missingMatchesOut (merged : List MergedRow) : List MergedRow :=
  let idx := withIdx 0 merged
  let matched := (idx.filter (fun p => hasWeather p.2)).map (fun p => p.1)
  (idx.filter (fun p => !(matched.contains p.1))).map (fun p => p.2)


/-- A weather cache directory with a single well-formed JFK file; input for
concrete witnesses of the join-engine claims. -/
def dirJFK : String → Option WFile := fun c =>
  if c = "JFK" then
    some { rows := [{ time := "2024-02-01", iata := "",
                      vars := [("temperature_2m_max", some "5.0")] }],
           hasIataCol := false, hasDateCol := true }
  else none

/-- An environment whose archive always answers HTTP 429; input for concrete
witnesses of the retry-budget claims. -/
def envAll429 : Env :=
  { registry := fun _ => some (0, 0), client := fun _ => ApiResult.rateLimited }

/-- An environment whose archive always answers with a well-formed daily
series; input for concrete witnesses of the idempotent re-run claims. -/
def envAllOk : Env :=
  { registry := fun _ => some (0, 0),
    client := fun _ =>
      ApiResult.success { daily := some { fields := [("time", ["2024-01-01"])] } } }

/-- An environment whose archive answers the first request with a payload
lacking the `daily` object and every later request with a well-formed body;
input for the station-abandonment counterexample. -/
def envMalformedFirst : Env :=
  { registry := fun _ => some (0, 0),
    client := fun n =>
      if n = 0 then ApiResult.success { daily := none }
      else ApiResult.success { daily := some { fields := [("time", ["x"])] } } }

/-- An environment with an empty station registry; input for the
registry-before-cache counterexample. -/
def envNoRegistry : Env :=
  { registry := fun _ => none, client := fun _ => ApiResult.rateLimited }

/-- A weather cache directory whose JFK file's single row has an unparsable
date; input for the unparsable-date counterexample. -/
def dirJFKbad : String → Option WFile := fun c =>
  if c = "JFK" then
    some { rows := [{ time := "badtime", iata := "",
                      vars := [("temperature_2m_max", some "5.0")] }],
           hasIataCol := false, hasDateCol := true }
  else none

/-- A weather cache directory whose JFK file's single row has a valid date
but every daily weather variable null; input for the match-classification
witness. -/
def dirJFKnull : String → Option WFile := fun c =>
  if c = "JFK" then
    some { rows := [{ time := "2024-02-01", iata := "",
                      vars := [("temperature_2m_max", none), ("precipitation_sum", none)] }],
           hasIataCol := false, hasDateCol := true }
  else none

/-- A one-row flight table whose date text fails day-before-month parsing;
input for the unparsable-date witnesses. -/
def rfBad : List RawFlight :=
  [{ origin := "JFK", fl_date := "99/99/2024" }]

/-- A one-row flight table with an ATL flight; input for the missing-matches
counterexample and witness. -/
def rfATL : List RawFlight :=
  [{ origin := "ATL", fl_date := "01/03/2024" }]

/-- The stacked weather table of the `dirJFK` directory; input for the
unparsable-date witness. -/
def wJFK : List WeatherRow :=
  (stackWeather SELECTED dirJFK).1

/-- The single merged row produced by `rfBad` against well-formed weather;
input for the unparsable-date witness. -/
def mRowBad : MergedRow :=
  { flight := normalizeFlight { origin := "JFK", fl_date := "99/99/2024" },
    weather := none }

/-- The single merged row produced by a JFK flight against `dirJFKnull`:
matched on the key, with every daily weather variable null; input for the
match-classification witness. -/
def mRowNull : MergedRow :=
  { flight := normalizeFlight { origin := "JFK", fl_date := "01/02/2024" },
    weather := some { time := "2024-02-01", date_str := "2024-02-01", iata := "JFK",
                      vars := [("temperature_2m_max", none), ("precipitation_sum", none)],
                      source_file := "weather_JFK.csv" } }

/-! ## Theorems -/

/-- C3: `months_between(2024-01-01, 2024-12-31)` yields exactly the 12 calendar
months of 2024, each period starting on day 1 and ending on the last calendar
day of its month (February ends 2024-02-29, a leap year), and no period end
exceeds 2024-12-31. -/
theorem months_between_2024_exact :
    months_between START_DATE END_DATE =
      [(⟨2024, 1, 1⟩, ⟨2024, 1, 31⟩), (⟨2024, 2, 1⟩, ⟨2024, 2, 29⟩),
       (⟨2024, 3, 1⟩, ⟨2024, 3, 31⟩), (⟨2024, 4, 1⟩, ⟨2024, 4, 30⟩),
       (⟨2024, 5, 1⟩, ⟨2024, 5, 31⟩), (⟨2024, 6, 1⟩, ⟨2024, 6, 30⟩),
       (⟨2024, 7, 1⟩, ⟨2024, 7, 31⟩), (⟨2024, 8, 1⟩, ⟨2024, 8, 31⟩),
       (⟨2024, 9, 1⟩, ⟨2024, 9, 30⟩), (⟨2024, 10, 1⟩, ⟨2024, 10, 31⟩),
       (⟨2024, 11, 1⟩, ⟨2024, 11, 30⟩), (⟨2024, 12, 1⟩, ⟨2024, 12, 31⟩)] ∧
    (months_between START_DATE END_DATE).length = 12 ∧
    (months_between START_DATE END_DATE).all (fun p => dateLe p.2 END_DATE) = true := by
  refine ⟨by decide, by decide, by decide⟩

/-- The concrete period list the orchestrator iterates per station. -/
theorem monthsList_eq :
    monthsList =
      [(⟨2024, 1, 1⟩, ⟨2024, 1, 31⟩), (⟨2024, 2, 1⟩, ⟨2024, 2, 29⟩),
       (⟨2024, 3, 1⟩, ⟨2024, 3, 31⟩), (⟨2024, 4, 1⟩, ⟨2024, 4, 30⟩),
       (⟨2024, 5, 1⟩, ⟨2024, 5, 31⟩), (⟨2024, 6, 1⟩, ⟨2024, 6, 30⟩),
       (⟨2024, 7, 1⟩, ⟨2024, 7, 31⟩), (⟨2024, 8, 1⟩, ⟨2024, 8, 31⟩),
       (⟨2024, 9, 1⟩, ⟨2024, 9, 30⟩), (⟨2024, 10, 1⟩, ⟨2024, 10, 31⟩),
       (⟨2024, 11, 1⟩, ⟨2024, 11, 30⟩), (⟨2024, 12, 1⟩, ⟨2024, 12, 31⟩)] := by
  decide

/-- Against an archive that always rate-limits, the attempt loop issues one
request per remaining attempt and ends exhausted. -/
theorem runAttempts_always429 (env : Env) (iata : String) (r : Request)
    (hcl : ∀ m, env.client m = ApiResult.rateLimited) :
    ∀ k n, runAttempts env iata r k n =
      { evs := List.replicate k (Ev.req r), n := n + k,
        out := PeriodOutcome.exhausted } := by
  intro k
  induction k with
  | zero => intro n; simp [runAttempts]
  | succ k ih =>
    intro n
    simp [runAttempts, hcl, ih (n + 1), List.replicate_succ]
    omega

/-- Every event issued by the attempt loop is a request with that period's
parameters. -/
theorem runAttempts_evs_req (env : Env) (iata : String) (r : Request) :
    ∀ k n, ∀ e ∈ (runAttempts env iata r k n).evs, e = Ev.req r := by
  intro k
  induction k with
  | zero => intro n e he; simp [runAttempts] at he
  | succ k ih =>
    intro n e he
    rcases hc : env.client n with _ | _ | p
    · simp only [runAttempts, hc] at he
      rcases List.mem_cons.mp he with he | he
      · exact he
      · exact ih (n + 1) e he
    · simp only [runAttempts, hc] at he
      rcases List.mem_cons.mp he with he | he
      · exact he
      · exact ih (n + 1) e he
    · rcases hd : p.daily with _ | dly
      · simp only [runAttempts, hc, hd] at he
        simpa using he
      · rcases ht : dly.fields.lookup "time" with _ | ts
        · simp only [runAttempts, hc, hd, ht] at he
          simpa using he
        · simp only [runAttempts, hc, hd, ht] at he
          simpa using he

/-- Every event issued by the month loop is a network request. -/
theorem runMonths_evs_req (env : Env) (iata : String) (lat lon : Int) :
    ∀ months n f p, ∀ e ∈ (runMonths env iata lat lon months n f p).evs,
      isReq e = true := by
  intro months
  induction months with
  | nil => intro n f p e he; simp [runMonths] at he
  | cons m rest ih =>
    rcases m with ⟨sdate, edate⟩
    intro n f p e he
    rcases ho : (runAttempts env iata (mkReq lat lon sdate edate) RETRY_ATTEMPTS n).out
      with part | _ | _
    · simp only [runMonths, ho] at he
      rcases List.mem_append.mp he with he | he
      · rw [runAttempts_evs_req env iata _ _ _ e he]; rfl
      · exact ih _ _ _ e he
    · simp only [runMonths, ho] at he
      rcases List.mem_append.mp he with he | he
      · rw [runAttempts_evs_req env iata _ _ _ e he]; rfl
      · exact ih _ _ _ e he
    · simp only [runMonths, ho] at he
      rw [runAttempts_evs_req env iata _ _ _ e he]; rfl

/-- A trace of pure request events contributes no audit-log rows. -/
theorem logRowsOf_req_nil (l : List Ev) (h : ∀ e ∈ l, isReq e = true) :
    logRowsOf l = [] := by
  induction l with
  | nil => rfl
  | cons e rest ih =>
    have h1 := h e (List.mem_cons_self e rest)
    have h2 : ∀ x ∈ rest, isReq x = true := fun x hx => h x (List.mem_cons_of_mem _ hx)
    cases e with
    | req r => simpa [logRowsOf] using ih h2
    | cacheWrite a ps => simp [isReq] at h1
    | logRow a b c => simp [isReq] at h1

/-- `logRowsOf` distributes over trace concatenation. -/
theorem logRowsOf_append (a b : List Ev) :
    logRowsOf (a ++ b) = logRowsOf a ++ logRowsOf b := by
  simp [logRowsOf, List.filterMap_append]

/-- C2: for a station with coordinates in the registry and no cache file,
against an archive that always rate-limits, the orchestrator makes exactly 6
attempts (6 requests, all for the first fetch period 2024-01-01..2024-01-31),
then appends a `failed` audit-log row for the station and writes no cache
file (the cache set is unchanged). -/
theorem retry_budget_six_attempts (env : Env) (st : St) (iata : String) (lat lon : Int)
    (hreg : env.registry iata = some (lat, lon))
    (hcl : ∀ m, env.client m = ApiResult.rateLimited)
    (hc : iata ∉ st.cache) :
    processStation env st iata =
      (List.replicate 6 (Ev.req (mkReq lat lon ⟨2024, 1, 1⟩ ⟨2024, 1, 31⟩)) ++
        [Ev.logRow iata "failed" "partial_or_429"],
       { cache := st.cache, reqCount := st.reqCount + 6 }) := by
  have h1 : runMonths env iata lat lon monthsList st.reqCount false [] =
      { evs := List.replicate 6 (Ev.req (mkReq lat lon ⟨2024, 1, 1⟩ ⟨2024, 1, 31⟩)),
        n := st.reqCount + 6, failed := true, parts := [] } := by
    rw [monthsList_eq]
    simp only [runMonths, runAttempts_always429 env iata _ hcl, RETRY_ATTEMPTS]
  simp only [processStation, hreg]
  rw [if_neg hc, h1]
  simp

/-- Witness for the retry-budget theorem at a concrete always-429 archive. -/
theorem retry_budget_six_attempts_witness :
    envAll429.registry "ALB" = some (0, 0) ∧
    (∀ m, envAll429.client m = ApiResult.rateLimited) ∧
    "ALB" ∉ ({ cache := [], reqCount := 0 } : St).cache ∧
    processStation envAll429 { cache := [], reqCount := 0 } "ALB" =
      (List.replicate 6 (Ev.req (mkReq 0 0 ⟨2024, 1, 1⟩ ⟨2024, 1, 31⟩)) ++
        [Ev.logRow "ALB" "failed" "partial_or_429"],
       { cache := [], reqCount := 6 }) :=
  ⟨rfl, fun _ => rfl, by decide,
   retry_budget_six_attempts envAll429 { cache := [], reqCount := 0 } "ALB" 0 0
     rfl (fun _ => rfl) (by decide)⟩

set_option maxRecDepth 8000 in
/-- C4 counterexample: with an archive whose first response has no `daily`
object (a malformed payload, so the first fetch period fails) and well-formed
responses afterwards, the orchestrator still issues requests for the later
periods — 12 requests in total, among them one for the second period
2024-02-01..2024-02-29 — before marking the station `failed` with no cache
file.  The claim's "abandons the station immediately, the Backoff Controller
is never invoked for any later period" is therefore false for the
malformed-payload case. -/
theorem station_abandonment_counterexample :
    envMalformedFirst.client 0 = ApiResult.success { daily := none } ∧
    ((processStation envMalformedFirst { cache := [], reqCount := 0 } "ALB").1.filter
      isReq).length = 12 ∧
    (processStation envMalformedFirst { cache := [], reqCount := 0 } "ALB").1.contains
      (Ev.req (mkReq 0 0 ⟨2024, 2, 1⟩ ⟨2024, 2, 29⟩)) = true ∧
    logRowsOf (processStation envMalformedFirst { cache := [], reqCount := 0 } "ALB").1 =
      [("ALB", "failed", "partial_or_429")] ∧
    (processStation envMalformedFirst { cache := [], reqCount := 0 } "ALB").2.cache = [] := by
  refine ⟨rfl, by decide, by decide, by decide, by decide⟩

/-- C4 as amended: (a) if any period of a station with coordinates and no
cache file fails — by retry exhaustion or by malformed payload — the station
is marked `failed`, no cache file is written and the cache set is unchanged;
(b) a period that fails by retry exhaustion abandons the station immediately:
the month loop returns right there and the remaining periods are never
attempted; (c) a period that fails by malformed payload does NOT abandon the
station: the month loop proceeds to the remaining periods (with the `failed`
flag set). -/
theorem station_failure_amended (env : Env) (st : St) (iata : String) (lat lon : Int)
    (hreg : env.registry iata = some (lat, lon))
    (hc : iata ∉ st.cache) :
    ((runMonths env iata lat lon monthsList st.reqCount false []).failed = true →
      logRowsOf (processStation env st iata).1 = [(iata, "failed", "partial_or_429")] ∧
      (∀ e ∈ (processStation env st iata).1, isCacheWrite e = false) ∧
      (processStation env st iata).2.cache = st.cache) ∧
    (∀ sdate edate rest n f p,
      (runAttempts env iata (mkReq lat lon sdate edate) RETRY_ATTEMPTS n).out =
        PeriodOutcome.exhausted →
      runMonths env iata lat lon ((sdate, edate) :: rest) n f p =
        { evs := (runAttempts env iata (mkReq lat lon sdate edate) RETRY_ATTEMPTS n).evs,
          n := (runAttempts env iata (mkReq lat lon sdate edate) RETRY_ATTEMPTS n).n,
          failed := true, parts := p }) ∧
    (∀ sdate edate rest n f p,
      (runAttempts env iata (mkReq lat lon sdate edate) RETRY_ATTEMPTS n).out =
        PeriodOutcome.malformed →
      runMonths env iata lat lon ((sdate, edate) :: rest) n f p =
        { evs := (runAttempts env iata (mkReq lat lon sdate edate) RETRY_ATTEMPTS n).evs ++
            (runMonths env iata lat lon rest
              (runAttempts env iata (mkReq lat lon sdate edate) RETRY_ATTEMPTS n).n true p).evs,
          n := (runMonths env iata lat lon rest
            (runAttempts env iata (mkReq lat lon sdate edate) RETRY_ATTEMPTS n).n true p).n,
          failed := (runMonths env iata lat lon rest
            (runAttempts env iata (mkReq lat lon sdate edate) RETRY_ATTEMPTS n).n true p).failed,
          parts := (runMonths env iata lat lon rest
            (runAttempts env iata (mkReq lat lon sdate edate) RETRY_ATTEMPTS n).n true p).parts }) := by
  refine ⟨fun hf => ?_, fun sdate edate rest n f p hx => ?_, fun sdate edate rest n f p hx => ?_⟩
  · have hps : processStation env st iata =
        ((runMonths env iata lat lon monthsList st.reqCount false []).evs ++
          [Ev.logRow iata "failed" "partial_or_429"],
         { cache := st.cache,
           reqCount := (runMonths env iata lat lon monthsList st.reqCount false []).n }) := by
      simp only [processStation, hreg]
      rw [if_neg hc]
      simp [hf]
    refine ⟨?_, ?_, ?_⟩
    · rw [hps]
      rw [logRowsOf_append,
        logRowsOf_req_nil _ (runMonths_evs_req env iata lat lon monthsList st.reqCount false [])]
      rfl
    · intro e he
      rw [hps] at he
      rcases List.mem_append.mp he with he | he
      · have := runMonths_evs_req env iata lat lon monthsList st.reqCount false [] e he
        cases e with
        | req r => rfl
        | cacheWrite a ps => simp [isReq] at this
        | logRow a b c => simp [isReq] at this
      · rcases List.mem_singleton.mp he with rfl
        rfl
    · rw [hps]
  · simp only [runMonths, hx]
  · simp only [runMonths, hx]

/-- Witness for the amended station-failure theorem at a concrete always-429
archive: the month loop's `failed` flag is set, the station is logged
`failed`, no cache write occurs and the cache set stays empty. -/
theorem station_failure_amended_witness :
    (runMonths envAll429 "ALB" 0 0 monthsList 0 false []).failed = true ∧
    logRowsOf (processStation envAll429 { cache := [], reqCount := 0 } "ALB").1 =
      [("ALB", "failed", "partial_or_429")] ∧
    (∀ e ∈ (processStation envAll429 { cache := [], reqCount := 0 } "ALB").1,
      isCacheWrite e = false) ∧
    (processStation envAll429 { cache := [], reqCount := 0 } "ALB").2.cache = [] := by
  refine ⟨by decide, ?_⟩
  have h := (station_failure_amended envAll429 { cache := [], reqCount := 0 } "ALB" 0 0
    rfl (by decide)).1 (by decide)
  exact h

/-- A station with no registry entry is logged `no_coords` and skipped,
whatever the cache holds (lines 75-79 run before lines 81-86). -/
theorem processStation_noCoords (env : Env) (st : St) (iata : String)
    (h : env.registry iata = none) :
    processStation env st iata = ([Ev.logRow iata "no_coords" "pulado"], st) := by
  simp [processStation, h]

/-- A station with a registry entry and an existing cache file is logged
`cached` and skipped with the state unchanged. -/
theorem processStation_cached (env : Env) (st : St) (iata : String) (lat lon : Int)
    (h : env.registry iata = some (lat, lon)) (hm : iata ∈ st.cache) :
    processStation env st iata = ([Ev.logRow iata "cached" "ok"], st) := by
  simp [processStation, h, hm]

/-- C7 counterexample: a station whose cache file exists but which has no
registry entry is recorded `no_coords`, not `cached` — the registry check
runs before the cache check, contrary to the claim. -/
theorem cache_check_order_counterexample :
    "JFK" ∈ ({ cache := ["JFK"], reqCount := 0 } : St).cache ∧
    envNoRegistry.registry "JFK" = none ∧
    processStation envNoRegistry { cache := ["JFK"], reqCount := 0 } "JFK" =
      ([Ev.logRow "JFK" "no_coords" "pulado"], { cache := ["JFK"], reqCount := 0 }) ∧
    logRowsOf (processStation envNoRegistry { cache := ["JFK"], reqCount := 0 } "JFK").1 ≠
      [("JFK", "cached", "ok")] := by
  refine ⟨by decide, rfl, by decide, by decide⟩

/-- C7 as amended: the registry check precedes the cache-file check — a
station without a registry entry is recorded `no_coords` and skipped even
when its cache file exists, and `cached` is recorded exactly for stations
that have a registry entry and an existing cache file: the station's log
row is `cached` if and only if the station has a registry entry and its
cache file exists (the fetch branch — registry entry, no cache file — only
ever logs `ok` or `failed`). -/
theorem registry_check_precedes_cache_check (env : Env) (st : St) (iata : String) :
    (env.registry iata = none →
      processStation env st iata = ([Ev.logRow iata "no_coords" "pulado"], st)) ∧
    (∀ lat lon, env.registry iata = some (lat, lon) → iata ∈ st.cache →
      processStation env st iata = ([Ev.logRow iata "cached" "ok"], st)) ∧
    (logRowsOf (processStation env st iata).1 = [(iata, "cached", "ok")] ↔
      ((env.registry iata).isSome = true ∧ iata ∈ st.cache)) := by
  refine ⟨fun h => processStation_noCoords env st iata h,
    fun lat lon h hm => processStation_cached env st iata lat lon h hm, ?_, ?_⟩
  · intro hlog
    rcases hreg : env.registry iata with _ | ⟨lat, lon⟩
    · rw [processStation_noCoords env st iata hreg] at hlog
      simp [logRowsOf] at hlog
    · by_cases hm : iata ∈ st.cache
      · exact ⟨rfl, hm⟩
      · exfalso
        by_cases hcond : (runMonths env iata lat lon monthsList st.reqCount false []).parts ≠ [] ∧
            (runMonths env iata lat lon monthsList st.reqCount false []).failed = false
        · have hps : (processStation env st iata).1 =
              (runMonths env iata lat lon monthsList st.reqCount false []).evs ++
                [Ev.cacheWrite iata
                   (runMonths env iata lat lon monthsList st.reqCount false []).parts,
                 Ev.logRow iata "ok" "salvo"] := by
            simp only [processStation, hreg]
            rw [if_neg hm, if_pos hcond]
          rw [hps, logRowsOf_append, logRowsOf_req_nil _
              (runMonths_evs_req env iata lat lon monthsList st.reqCount false [])] at hlog
          simp [logRowsOf] at hlog
        · have hps : (processStation env st iata).1 =
              (runMonths env iata lat lon monthsList st.reqCount false []).evs ++
                [Ev.logRow iata "failed" "partial_or_429"] := by
            simp only [processStation, hreg]
            rw [if_neg hm, if_neg hcond]
          rw [hps, logRowsOf_append, logRowsOf_req_nil _
              (runMonths_evs_req env iata lat lon monthsList st.reqCount false [])] at hlog
          simp [logRowsOf] at hlog
  · rintro ⟨hsome, hm⟩
    rcases hreg : env.registry iata with _ | ⟨lat, lon⟩
    · rw [hreg] at hsome
      simp at hsome
    · rw [processStation_cached env st iata lat lon hreg hm]
      rfl

/-- Witness for the amended check-order theorem at concrete stations: a
cached-but-unregistered station logs `no_coords`, a registered-and-cached
station logs `cached`, and a registered station without a cache file is
never logged `cached` (here its fetch against an always-429 archive fails). -/
theorem registry_check_precedes_cache_check_witness :
    processStation envNoRegistry { cache := ["SJU"], reqCount := 0 } "SJU" =
      ([Ev.logRow "SJU" "no_coords" "pulado"], { cache := ["SJU"], reqCount := 0 }) ∧
    processStation envAll429 { cache := ["BOS"], reqCount := 0 } "BOS" =
      ([Ev.logRow "BOS" "cached" "ok"], { cache := ["BOS"], reqCount := 0 }) ∧
    logRowsOf (processStation envAll429 { cache := [], reqCount := 0 } "PHX").1 ≠
      [("PHX", "cached", "ok")] := by
  refine ⟨(registry_check_precedes_cache_check envNoRegistry
      { cache := ["SJU"], reqCount := 0 } "SJU").1 rfl,
    (registry_check_precedes_cache_check envAll429
      { cache := ["BOS"], reqCount := 0 } "BOS").2.1 0 0 rfl (by decide), ?_⟩
  intro h
  have h2 := ((registry_check_precedes_cache_check envAll429
      { cache := [], reqCount := 0 } "PHX").2.2.mp h).2
  simp at h2

/-- A station code found in the cache set after one station is processed was
already cached before, or has a registry entry. -/
theorem processStation_cache_mem (env : Env) (st : St) (iata : String) :
    ∀ s, s ∈ (processStation env st iata).2.cache →
      s ∈ st.cache ∨ (env.registry s).isSome = true := by
  intro s hs
  rcases hreg : env.registry iata with _ | ⟨lat, lon⟩
  · simp only [processStation, hreg] at hs
    exact Or.inl hs
  · by_cases hm : iata ∈ st.cache
    · rw [processStation_cached env st iata lat lon hreg hm] at hs
      exact Or.inl hs
    · simp only [processStation, hreg] at hs
      rw [if_neg hm] at hs
      split at hs
      · simp only at hs
        rcases List.mem_append.mp hs with h | h
        · exact Or.inl h
        · rcases List.mem_singleton.mp h with rfl
          right
          rw [hreg]
          rfl
      · exact Or.inl hs

/-- A station code found in the cache set after a run was already cached
before the run, or has a registry entry. -/
theorem runStations_cache_mem (env : Env) :
    ∀ pending st s, s ∈ (runStations env st pending).2.cache →
      s ∈ st.cache ∨ (env.registry s).isSome = true := by
  intro pending
  induction pending with
  | nil => intro st s hs; exact Or.inl hs
  | cons i rest ih =>
    intro st s hs
    simp only [runStations] at hs
    rcases ih (processStation env st i).2 s hs with h | h
    · exact processStation_cache_mem env st i s h
    · exact Or.inr h

/-- A run over a pending list, all of whose stations have a registry entry
and an existing cache file, logs every station `cached` and leaves the state
untouched. -/
theorem second_run_all_cached (env : Env) (st : St) :
    ∀ pending, (∀ s ∈ pending, s ∈ st.cache) →
      (∀ s ∈ pending, (env.registry s).isSome = true) →
      runStations env st pending =
        (pending.map (fun s => Ev.logRow s "cached" "ok"), st) := by
  intro pending
  induction pending with
  | nil => intro _ _; rfl
  | cons i rest ih =>
    intro hmem hreg
    have hi := hreg i (List.mem_cons_self i rest)
    rcases hsome : env.registry i with _ | ⟨lat, lon⟩
    · rw [hsome] at hi
      simp at hi
    · have h1 := processStation_cached env st i lat lon hsome
        (hmem i (List.mem_cons_self i rest))
      have h2 := ih (fun s hs => hmem s (List.mem_cons_of_mem _ hs))
        (fun s hs => hreg s (List.mem_cons_of_mem _ hs))
      simp only [runStations, h1, h2]
      simp

/-- C5: if a first invocation starting from an empty cache directory leaves
every pending station with a cache file, then a second invocation over the
same pending list makes zero network requests and appends a `cached`
audit-log row for every pending station, in order, leaving the state
unchanged. -/
theorem idempotent_second_run (env : Env) (st0 : St) (pending : List String)
    (evs1 : List Ev) (st1 : St)
    (h0 : st0.cache = [])
    (hrun : runStations env st0 pending = (evs1, st1))
    (hmem : ∀ s ∈ pending, s ∈ st1.cache) :
    runStations env st1 pending =
      (pending.map (fun s => Ev.logRow s "cached" "ok"), st1) ∧
    ((runStations env st1 pending).1.filter isReq).length = 0 := by
  have hst1 : st1 = (runStations env st0 pending).2 := by rw [hrun]
  have hreg : ∀ s ∈ pending, (env.registry s).isSome = true := by
    intro s hs
    have h1 := hmem s hs
    rw [hst1] at h1
    rcases runStations_cache_mem env pending st0 s h1 with h | h
    · rw [h0] at h
      simp at h
    · exact h
  have hmain := second_run_all_cached env st1 pending hmem hreg
  refine ⟨hmain, ?_⟩
  rw [hmain]
  have hnone : ∀ xs : List String,
      (xs.map (fun s => Ev.logRow s "cached" "ok")).filter isReq = [] := by
    intro xs
    induction xs with
    | nil => rfl
    | cons x rest ih => simp [List.filter_cons, isReq, ih]
  simp [hnone pending]

/-- Witness for the idempotent second run: after a first run of station ALB
against an always-well-formed archive, a second run over the same pending
list yields only a `cached` log row and no requests. -/
theorem idempotent_second_run_witness :
    runStations envAllOk (runStations envAllOk { cache := [], reqCount := 0 } ["ALB"]).2
        ["ALB"] =
      ([Ev.logRow "ALB" "cached" "ok"],
       (runStations envAllOk { cache := [], reqCount := 0 } ["ALB"]).2) ∧
    ((runStations envAllOk (runStations envAllOk { cache := [], reqCount := 0 } ["ALB"]).2
        ["ALB"]).1.filter isReq).length = 0 :=
  idempotent_second_run envAllOk { cache := [], reqCount := 0 } ["ALB"]
    (runStations envAllOk { cache := [], reqCount := 0 } ["ALB"]).1
    (runStations envAllOk { cache := [], reqCount := 0 } ["ALB"]).2
    rfl rfl (by decide)

/-- The event trace of one station ends with that station's audit-log row —
the row is appended only after the station's processing has fully resolved —
and no earlier event of the station is a log row; the status is one of the
four legal ones. -/
theorem processStation_shape (env : Env) (st : St) (iata : String) :
    ∃ body b c,
      (processStation env st iata).1 = body ++ [Ev.logRow iata b c] ∧
      logRowsOf body = [] ∧
      (b = "ok" ∨ b = "cached" ∨ b = "no_coords" ∨ b = "failed") := by
  rcases hreg : env.registry iata with _ | ⟨lat, lon⟩
  · refine ⟨[], "no_coords", "pulado", ?_, rfl, by simp⟩
    rw [processStation_noCoords env st iata hreg]
    rfl
  · by_cases hm : iata ∈ st.cache
    · refine ⟨[], "cached", "ok", ?_, rfl, by simp⟩
      rw [processStation_cached env st iata lat lon hreg hm]
      rfl
    · by_cases hcond : (runMonths env iata lat lon monthsList st.reqCount false []).parts ≠ [] ∧
        (runMonths env iata lat lon monthsList st.reqCount false []).failed = false
      · refine ⟨(runMonths env iata lat lon monthsList st.reqCount false []).evs ++
          [Ev.cacheWrite iata (runMonths env iata lat lon monthsList st.reqCount false []).parts],
          "ok", "salvo", ?_, ?_, by simp⟩
        · simp only [processStation, hreg]
          rw [if_neg hm, if_pos hcond]
          simp
        · rw [logRowsOf_append, logRowsOf_req_nil _
            (runMonths_evs_req env iata lat lon monthsList st.reqCount false [])]
          rfl
      · refine ⟨(runMonths env iata lat lon monthsList st.reqCount false []).evs,
          "failed", "partial_or_429", ?_, ?_, by simp⟩
        · simp only [processStation, hreg]
          rw [if_neg hm, if_neg hcond]
        · exact logRowsOf_req_nil _
            (runMonths_evs_req env iata lat lon monthsList st.reqCount false [])

/-- One station contributes exactly one audit-log row, tagged with its own
code and a legal status. -/
theorem processStation_logRows (env : Env) (st : St) (iata : String) :
    ∃ b c,
      logRowsOf (processStation env st iata).1 = [(iata, b, c)] ∧
      (b = "ok" ∨ b = "cached" ∨ b = "no_coords" ∨ b = "failed") := by
  obtain ⟨body, b, c, hsh, hbody, hb⟩ := processStation_shape env st iata
  refine ⟨b, c, ?_, hb⟩
  rw [hsh, logRowsOf_append, hbody]
  rfl

/-- Across a run, the audit-log rows are in bijection with the pending list,
in order, and every status is legal. -/
theorem runStations_logRows (env : Env) :
    ∀ pending st,
      (logRowsOf (runStations env st pending).1).map (fun r => r.1) = pending ∧
      (∀ row ∈ logRowsOf (runStations env st pending).1,
        row.2.1 = "ok" ∨ row.2.1 = "cached" ∨ row.2.1 = "no_coords" ∨
          row.2.1 = "failed") := by
  intro pending
  induction pending with
  | nil =>
    intro st
    exact ⟨rfl, by intro row hrow; simp [runStations, logRowsOf] at hrow⟩
  | cons i rest ih =>
    intro st
    obtain ⟨b, c, hlog, hb⟩ := processStation_logRows env st i
    have hun : logRowsOf (runStations env st (i :: rest)).1 =
        (i, b, c) :: logRowsOf (runStations env (processStation env st i).2 rest).1 := by
      simp only [runStations]
      rw [logRowsOf_append, hlog]
      rfl
    constructor
    · rw [hun]
      simp only [List.map_cons]
      rw [(ih (processStation env st i).2).1]
    · intro row hrow
      rw [hun] at hrow
      rcases List.mem_cons.mp hrow with h | h
      · rw [h]
        exact hb
      · exact (ih (processStation env st i).2).2 row h

/-- C6: every station taken from the pending list yields exactly one
audit-log row per run (the row sequence maps one-to-one, in order, onto the
pending list), each status is drawn from {ok, cached, no_coords, failed},
each station's row is appended only after that station's other effects
(requests, cache write) have completed, and the header row occurs exactly
once in the final log when the log file did not exist before the run, and
exactly as often as before when it did. -/
theorem audit_log_invariants (env : Env) (st : St) (pending : List String)
    (logExists : Bool) (old : List (String × String × String)) :
    (logRowsOf (runStations env st pending).1).map (fun r => r.1) = pending ∧
    (∀ row ∈ logRowsOf (runStations env st pending).1,
      row.2.1 = "ok" ∨ row.2.1 = "cached" ∨ row.2.1 = "no_coords" ∨
        row.2.1 = "failed") ∧
    (∀ iata st0, ∃ body b c,
      (processStation env st0 iata).1 = body ++ [Ev.logRow iata b c] ∧
      logRowsOf body = []) ∧
    (finalLog logExists old (runStations env st pending).1).count
        ("iata", "status", "notes") =
      (if logExists then old.count ("iata", "status", "notes") else 1) := by
  obtain ⟨h1, h2⟩ := runStations_logRows env pending st
  refine ⟨h1, h2, ?_, ?_⟩
  · intro iata st0
    obtain ⟨body, b, c, hsh, hbody, _⟩ := processStation_shape env st0 iata
    exact ⟨body, b, c, hsh, hbody⟩
  · have hzero : (logRowsOf (runStations env st pending).1).count
        ("iata", "status", "notes") = 0 := by
      rw [List.count_eq_zero]
      intro hmem
      rcases h2 _ hmem with h | h | h | h <;> simp at h
    cases logExists with
    | false => simp [finalLog, List.count_append, hzero]
    | true => simp [finalLog, List.count_append, hzero]

/-- Witness for the audit-log invariants at a concrete one-station run with
no pre-existing log file. -/
theorem audit_log_invariants_witness :
    (logRowsOf (runStations envAllOk { cache := [], reqCount := 0 } ["ALB"]).1).map
        (fun r => r.1) = ["ALB"] ∧
    (finalLog false [] (runStations envAllOk { cache := [], reqCount := 0 } ["ALB"]).1).count
        ("iata", "status", "notes") = 1 := by
  have h := audit_log_invariants envAllOk { cache := [], reqCount := 0 } ["ALB"] false []
  exact ⟨h.1, by simpa using h.2.2.2⟩

/-- Deduplication only keeps rows of the original stacked table. -/
theorem dedupGo_subset :
    ∀ (l : List WeatherRow) (seen : List (String × String)) (w : WeatherRow),
      w ∈ dedupGo seen l → w ∈ l := by
  intro l
  induction l with
  | nil => intro seen w hw; simp [dedupGo] at hw
  | cons x rest ih =>
    intro seen w hw
    by_cases hin : (x.iata, x.date_str) ∈ seen
    · rw [dedupGo, if_pos hin] at hw
      exact List.mem_cons_of_mem _ (ih seen w hw)
    · rw [dedupGo, if_neg hin] at hw
      rcases List.mem_cons.mp hw with h | h
      · rw [h]
        exact List.mem_cons_self x rest
      · exact List.mem_cons_of_mem _ (ih _ w h)

/-- A row surviving deduplication has a key outside the seen set. -/
theorem dedupGo_not_seen :
    ∀ (l : List WeatherRow) (seen : List (String × String)) (w : WeatherRow),
      w ∈ dedupGo seen l → (w.iata, w.date_str) ∉ seen := by
  intro l
  induction l with
  | nil => intro seen w hw; simp [dedupGo] at hw
  | cons x rest ih =>
    intro seen w hw
    by_cases hin : (x.iata, x.date_str) ∈ seen
    · rw [dedupGo, if_pos hin] at hw
      exact ih seen w hw
    · rw [dedupGo, if_neg hin] at hw
      rcases List.mem_cons.mp hw with h | h
      · rw [h]
        exact hin
      · intro hcon
        exact ih _ w h (List.mem_cons_of_mem _ hcon)

/-- After deduplication, all (station, date) keys are pairwise distinct. -/
theorem dedupGo_pairwise :
    ∀ (l : List WeatherRow) (seen : List (String × String)),
      (dedupGo seen l).Pairwise
        (fun a b => (a.iata, a.date_str) ≠ (b.iata, b.date_str)) := by
  intro l
  induction l with
  | nil => intro seen; simp [dedupGo]
  | cons x rest ih =>
    intro seen
    by_cases hin : (x.iata, x.date_str) ∈ seen
    · rw [dedupGo, if_pos hin]
      exact ih seen
    · rw [dedupGo, if_neg hin]
      refine List.Pairwise.cons ?_ (ih _)
      intro b hb hcon
      have := dedupGo_not_seen rest _ b hb
      rw [← hcon] at this
      exact this (List.mem_cons_self _ _)

/-- With pairwise-distinct keys, at most one row matches a given key. -/
theorem filter_key_len_le_one (o d : String) :
    ∀ (l : List WeatherRow),
      l.Pairwise (fun a b => (a.iata, a.date_str) ≠ (b.iata, b.date_str)) →
      (l.filter (fun x => decide (x.iata = o ∧ x.date_str = d))).length ≤ 1 := by
  intro l
  induction l with
  | nil => intro _; simp
  | cons x rest ih =>
    intro hp
    rcases List.pairwise_cons.mp hp with ⟨hx, hrest⟩
    by_cases hmatch : x.iata = o ∧ x.date_str = d
    · rw [List.filter_cons_of_pos (by simpa using hmatch)]
      have hnil : rest.filter (fun y => decide (y.iata = o ∧ y.date_str = d)) = [] := by
        rw [List.filter_eq_nil_iff]
        intro b hb hcon
        rcases (by simpa using hcon : b.iata = o ∧ b.date_str = d) with ⟨h1, h2⟩
        rcases hmatch with ⟨h3, h4⟩
        exact hx b hb (by rw [h1, h2, h3, h4])
      rw [hnil]
      simp
    · rw [List.filter_cons_of_neg (by simpa using hmatch)]
      exact ih hrest

/-- The flight column of the left-merge output, row for row, is exactly the
flight input, provided the weather side has pairwise-distinct keys. -/
theorem mergeLeft_map_flight :
    ∀ (fs : List NormFlight) (w : List WeatherRow),
      w.Pairwise (fun a b => (a.iata, a.date_str) ≠ (b.iata, b.date_str)) →
      (mergeLeft fs w).map (fun m => m.flight) = fs := by
  intro fs
  induction fs with
  | nil => intro w _; rfl
  | cons f fs ih =>
    intro w hw
    rw [mergeLeft, List.map_append, ih w hw]
    by_cases hE : (w.filter (fun x =>
        decide (x.iata = f.origin ∧ x.date_str = nanStr f.flight_date_str))).isEmpty
    · rw [if_pos hE]
      rfl
    · rw [if_neg hE]
      have hlen := filter_key_len_le_one f.origin (nanStr f.flight_date_str) w hw
      have hne : (w.filter (fun x =>
          decide (x.iata = f.origin ∧ x.date_str = nanStr f.flight_date_str))).length ≠ 0 := by
        intro hcon
        rw [List.length_eq_zero] at hcon
        rw [hcon] at hE
        simp at hE
      have hone : (w.filter (fun x =>
          decide (x.iata = f.origin ∧ x.date_str = nanStr f.flight_date_str))).length = 1 := by
        omega
      rcases List.length_eq_one.mp hone with ⟨x, hx⟩
      rw [hx]
      rfl

/-- Whatever the stacked weather table, the merged output `main` writes has
exactly the selected flights as its flight column. -/
theorem mergedOf_map_flight (fs : List NormFlight) (wAll : List WeatherRow) :
    (mergedOf fs wAll).map (fun m => m.flight) = fs := by
  by_cases hE : wAll.isEmpty
  · rw [mergedOf, if_pos hE, List.map_map]
    exact List.map_id fs
  · rw [mergedOf, if_neg hE]
    exact mergeLeft_map_flight fs (dedupFirst wAll) (dedupGo_pairwise wAll [])

/-- C1: for every flight table and every stacked weather table — duplicate
(station, date) rows included — the merged output contains exactly one row
per input flight row whose origin is in the configured allow-list: mapping
each output row to its flight part gives back the selected flight rows,
one-for-one and in order. -/
theorem join_left_cardinality (rf : List RawFlight) (wAll : List WeatherRow) :
    (mergedOf (flightsSel rf) wAll).map (fun m => m.flight) = flightsSel rf :=
  mergedOf_map_flight (flightsSel rf) wAll

/-- Any matched weather row of the merge output comes from the weather table
and carries exactly the flight's join-key date string. -/
theorem mergeLeft_weather_key :
    ∀ (fs : List NormFlight) (w : List WeatherRow) (m : MergedRow),
      m ∈ mergeLeft fs w →
      m.weather = none ∨
        (∃ x, m.weather = some x ∧ x ∈ w ∧
          x.date_str = nanStr m.flight.flight_date_str) := by
  intro fs
  induction fs with
  | nil => intro w m hm; simp [mergeLeft] at hm
  | cons f fs ih =>
    intro w m hm
    rw [mergeLeft] at hm
    rcases List.mem_append.mp hm with h | h
    · by_cases hE : (w.filter (fun x =>
          decide (x.iata = f.origin ∧ x.date_str = nanStr f.flight_date_str))).isEmpty
      · rw [if_pos hE] at h
        rcases List.mem_singleton.mp h with rfl
        exact Or.inl rfl
      · rw [if_neg hE] at h
        rcases List.mem_map.mp h with ⟨x, hx, rfl⟩
        refine Or.inr ⟨x, rfl, List.mem_of_mem_filter hx, ?_⟩
        have := List.of_mem_filter hx
        exact (by simpa using this : x.iata = f.origin ∧ _).2
    · exact ih w m h

/-- C8 counterexample: a flight whose date text fails day-before-month
parsing CAN be matched to a weather row — when a weather row's own date also
failed to parse, both sides' `.astype(str)` coercion turns the missing value
into the literal string `"nan"`, and the keys align.  The claim's "is matched
to no weather row" is therefore false as stated. -/
theorem unparsable_date_counterexample :
    parseDayFirst "99/99/2024" = none ∧
    (normalizeFlight { origin := "JFK", fl_date := "99/99/2024" }).flight_date_str = none ∧
    (mainMergedOut rfBad dirJFKbad).map (fun m => m.weather.isSome) = [true] := by
  refine ⟨rfl, rfl, by decide⟩

/-- C8 as amended: a flight row whose date text fails day-before-month
parsing receives a null canonical date, is retained in the merged output
exactly once (the flight column of the output is the selected input,
one-for-one), and — provided every stacked weather row's own date parsed
(none carries the `"nan"` sentinel) — is matched to no weather row. -/
theorem unparsable_date_amended (rf : List RawFlight) (wAll : List WeatherRow)
    (hw : ∀ w ∈ wAll, w.date_str ≠ "nan") :
    (∀ f : RawFlight, parseDayFirst f.fl_date = none →
      (normalizeFlight f).flight_date_str = none) ∧
    (mergedOf (flightsSel rf) wAll).map (fun m => m.flight) = flightsSel rf ∧
    (∀ m ∈ mergedOf (flightsSel rf) wAll,
      m.flight.flight_date_parsed = none → m.weather = none) := by
  refine ⟨?_, mergedOf_map_flight (flightsSel rf) wAll, ?_⟩
  · intro f hf
    simp [normalizeFlight, hf]
  · intro m hm hparse
    by_cases hE : wAll.isEmpty
    · rw [mergedOf, if_pos hE] at hm
      rcases List.mem_map.mp hm with ⟨f, _, rfl⟩
      rfl
    · rw [mergedOf, if_neg hE] at hm
      rcases mergeLeft_weather_key (flightsSel rf) (dedupFirst wAll) m hm with h | ⟨x, hx, hxw, hkey⟩
      · exact h
      · exfalso
        have hmf : m.flight ∈ flightsSel rf := by
          have h1 : m.flight ∈ (mergedOf (flightsSel rf) wAll).map (fun m => m.flight) := by
            rw [mergedOf, if_neg hE]
            exact List.mem_map_of_mem _ hm
          rw [mergedOf_map_flight (flightsSel rf) wAll] at h1
          exact h1
        rcases List.mem_map.mp (List.mem_of_mem_filter hmf) with ⟨raw, _, hraw⟩
        have hstr : m.flight.flight_date_str = none := by
          rw [← hraw] at hparse
          rw [← hraw]
          simp only [normalizeFlight] at hparse
          simp [normalizeFlight, hparse]
        rw [hstr] at hkey
        exact hw x (dedupGo_subset wAll [] x hxw) hkey

/-- Witness for the amended unparsable-date theorem at a concrete flight
with unparsable date text against well-formed JFK weather. -/
theorem unparsable_date_amended_witness :
    (normalizeFlight { origin := "JFK", fl_date := "99/99/2024" }).flight_date_str = none ∧
    (mergedOf (flightsSel rfBad) wJFK).map (fun m => m.flight) = flightsSel rfBad ∧
    mRowBad.weather = none := by
  have h := unparsable_date_amended rfBad wJFK (by decide)
  exact ⟨h.1 { origin := "JFK", fl_date := "99/99/2024" } rfl, h.2.1,
    h.2.2 mRowBad (by decide) (by decide)⟩

/-- Positional indices assigned from `n` onwards are at least `n`. -/
theorem withIdx_fst_ge :
    ∀ (l : List MergedRow) (n : Nat) (p : Nat × MergedRow),
      p ∈ withIdx n l → n ≤ p.1 := by
  intro l
  induction l with
  | nil => intro n p hp; simp [withIdx] at hp
  | cons a rest ih =>
    intro n p hp
    rcases List.mem_cons.mp hp with h | h
    · rw [h]
    · exact Nat.le_of_succ_le (ih (n + 1) p h)

/-- A positional index determines its row: the default `RangeIndex` of the
merged dataframe has no duplicate labels. -/
theorem withIdx_inj :
    ∀ (l : List MergedRow) (n i : Nat) (a b : MergedRow),
      (i, a) ∈ withIdx n l → (i, b) ∈ withIdx n l → a = b := by
  intro l
  induction l with
  | nil => intro n i a b ha _; simp [withIdx] at ha
  | cons c rest ih =>
    intro n i a b ha hb
    rcases List.mem_cons.mp ha with h1 | h1 <;> rcases List.mem_cons.mp hb with h2 | h2
    · have e1 : a = c := congrArg Prod.snd h1
      have e2 : b = c := congrArg Prod.snd h2
      rw [e1, e2]
    · have e1 : i = n := congrArg Prod.fst h1
      have := withIdx_fst_ge rest (n + 1) (i, b) h2
      omega
    · have e2 : i = n := congrArg Prod.fst h2
      have := withIdx_fst_ge rest (n + 1) (i, a) h1
      omega
    · exact ih (n + 1) i a b h1 h2

/-- Filtering the indexed rows on a row predicate and dropping the indices is
filtering the rows directly. -/
theorem withIdx_filter_map_snd (q : MergedRow → Bool) :
    ∀ (l : List MergedRow) (n : Nat),
      ((withIdx n l).filter (fun p => q p.2)).map (fun p => p.2) = l.filter q := by
  intro l
  induction l with
  | nil => intro n; rfl
  | cons a rest ih =>
    intro n
    cases hq : q a with
    | true => simp [withIdx, List.filter_cons, hq, ih (n + 1)]
    | false => simp [withIdx, List.filter_cons, hq, ih (n + 1)]

/-- The index-based row selection of line 157 coincides with the complement
of the `has_weather` mask: `missing_matches` consists of exactly the merged
rows in which no merge-added column is populated. -/
theorem missingMatches_eq_filter (merged : List MergedRow) :
    missingMatchesOut merged = merged.filter (fun m => !(hasWeather m)) := by
  rw [missingMatchesOut]
  have hpt : ∀ p ∈ withIdx 0 merged,
      (((withIdx 0 merged).filter (fun p => hasWeather p.2)).map
        (fun p => p.1)).contains p.1 = hasWeather p.2 := by
    intro p hp
    cases hw : hasWeather p.2 with
    | true =>
      have : p.1 ∈ ((withIdx 0 merged).filter (fun p => hasWeather p.2)).map
          (fun p => p.1) :=
        List.mem_map_of_mem _ (List.mem_filter.mpr ⟨hp, hw⟩)
      simpa using this
    | false =>
      by_contra hcon
      have hmem : p.1 ∈ ((withIdx 0 merged).filter (fun p => hasWeather p.2)).map
          (fun p => p.1) := by
        rcases hcont : (((withIdx 0 merged).filter (fun p => hasWeather p.2)).map
            (fun p => p.1)).contains p.1 with _ | _
        · rw [hcont] at hcon; exact absurd rfl hcon
        · simpa using hcont
      rcases List.mem_map.mp hmem with ⟨q, hq, hq1⟩
      rcases List.mem_filter.mp hq with ⟨hqm, hqw⟩
      have hpq : q.2 = p.2 := by
        have h1 : (p.1, q.2) ∈ withIdx 0 merged := by
          have : q = (p.1, q.2) := by
            rcases q with ⟨q1, q2⟩
            simp at hq1
            rw [hq1]
          rw [← this]
          exact hqm
        have h2 : (p.1, p.2) ∈ withIdx 0 merged := by
          rcases p with ⟨p1, p2⟩
          exact hp
        exact withIdx_inj merged 0 p.1 q.2 p.2 h1 h2
      rw [hpq] at hqw
      rw [hqw] at hw
      exact Bool.noConfusion hw
  have hcongr : (withIdx 0 merged).filter (fun p =>
      !((((withIdx 0 merged).filter (fun p => hasWeather p.2)).map
        (fun p => p.1)).contains p.1)) =
      (withIdx 0 merged).filter (fun p => !(hasWeather p.2)) := by
    apply List.filter_congr
    intro p hp
    rw [hpt p hp]
  rw [hcongr, withIdx_filter_map_snd (fun m => !(hasWeather m)) merged 0]

/-- Membership in an insertion step of the sort. -/
theorem mem_insertSorted (x a : String) :
    ∀ l : List String, a ∈ insertSorted x l ↔ a = x ∨ a ∈ l := by
  intro l
  induction l with
  | nil => simp [insertSorted]
  | cons y ys ih =>
    rw [insertSorted]
    by_cases h : strLe x y = true
    · rw [if_pos h]
      simp
    · rw [if_neg h]
      rw [List.mem_cons, List.mem_cons, ih]
      tauto

/-- Sorting does not change membership. -/
theorem mem_sortStrs (a : String) :
    ∀ l : List String, a ∈ sortStrs l ↔ a ∈ l := by
  intro l
  induction l with
  | nil => simp [sortStrs]
  | cons x xs ih =>
    rw [sortStrs, mem_insertSorted, ih, List.mem_cons]

/-- C9 counterexample: a flight whose origin (ATL) has no weather file at
all — ATL is absent from `found` and listed in missing-origins — still
appears in the missing-matches output, contradicting the claim that such
flights are accounted for only by the separate missing-origins output. -/
theorem missing_matches_counterexample :
    (missingMatchesOut (mainMergedOut rfATL dirJFK)).map (fun m => m.flight.origin) =
      ["ATL"] ∧
    "ATL" ∉ (stackWeather SELECTED dirJFK).2 ∧
    "ATL" ∈ missingOriginsOut dirJFK := by
  refine ⟨by decide, by decide, by decide⟩

/-- C9 as amended: the missing-matches output contains exactly the merged
rows in which no weather-sourced column was populated — including rows of
flights whose origin has no weather file at all; such origins are listed, in
addition, in the missing-origins output, which holds exactly the configured
stations without a stacked weather file. -/
theorem missing_matches_amended (merged : List MergedRow)
    (dir : String → Option WFile) :
    missingMatchesOut merged = merged.filter (fun m => !(hasWeather m)) ∧
    (∀ c, c ∈ missingOriginsOut dir ↔
      c ∈ SELECTED ∧ c ∉ (stackWeather SELECTED dir).2) := by
  refine ⟨missingMatches_eq_filter merged, ?_⟩
  intro c
  rw [missingOriginsOut, mem_sortStrs, List.mem_filter]
  constructor
  · rintro ⟨h1, h2⟩
    refine ⟨h1, ?_⟩
    intro hcon
    rw [(by simpa using hcon : (stackWeather SELECTED dir).2.contains c = true)] at h2
    exact Bool.noConfusion h2
  · rintro ⟨h1, h2⟩
    refine ⟨h1, ?_⟩
    rcases hcont : (stackWeather SELECTED dir).2.contains c with _ | _
    · rfl
    · exact absurd (by simpa using hcont) h2

/-- Witness for the amended missing-matches theorem at the concrete ATL
flight against a weather directory holding only a JFK file. -/
theorem missing_matches_amended_witness :
    missingMatchesOut (mainMergedOut rfATL dirJFK) =
      (mainMergedOut rfATL dirJFK).filter (fun m => !(hasWeather m)) ∧
    ("ATL" ∈ missingOriginsOut dirJFK ↔
      "ATL" ∈ SELECTED ∧ "ATL" ∉ (stackWeather SELECTED dirJFK).2) := by
  have h := missing_matches_amended (mainMergedOut rfATL dirJFK) dirJFK
  exact ⟨h.1, h.2 "ATL"⟩

/-- The `has_weather` scan over the merge-added columns — which include the
weather-side key and provenance columns `iata`, `date_str`, `source_file`,
always populated on a key match — evaluates to whether the left join matched
a weather row for the flight's key, whatever the daily variable cells hold. -/
theorem hasWeather_eq (m : MergedRow) :
    hasWeather m = m.weather.isSome := by
  rcases m with ⟨f, w⟩
  cases w with
  | none => rfl
  | some x => simp [hasWeather, addedCells]

/-- C10: in the merged output, a row is classified as having weather exactly
when the left join matched a deduplicated weather row for its key — so a
matched row whose daily weather variables are all null still counts as
matched and is excluded from the missing-matches output. -/
theorem match_classification (rf : List RawFlight) (dir : String → Option WFile) :
    ∀ m ∈ mainMergedOut rf dir,
      (hasWeather m = true ↔ m.weather.isSome = true) ∧
      (m.weather.isSome = true →
        m ∉ missingMatchesOut (mainMergedOut rf dir)) := by
  intro m _
  constructor
  · rw [hasWeather_eq m]
  · intro hw hmem
    rw [missingMatches_eq_filter] at hmem
    have h2 := (List.mem_filter.mp hmem).2
    rw [hasWeather_eq m, hw] at h2
    exact Bool.noConfusion h2

/-- Witness for the match classification at a concrete matched row whose
daily weather variables are all null. -/
theorem match_classification_witness :
    hasWeather mRowNull = true ∧
    mRowNull ∉ missingMatchesOut
      (mainMergedOut [{ origin := "JFK", fl_date := "01/02/2024" }] dirJFKnull) := by
  have h := match_classification [{ origin := "JFK", fl_date := "01/02/2024" }] dirJFKnull
    mRowNull (by decide)
  exact ⟨h.1.mpr (by decide), h.2 (by decide)⟩
